import Mathlib

/-!
# format-docs: a verification development

Shallow embedding of the core modules of the `format-docs` repository
(spreadsheet parser, template generator, preview navigator) together with
theorems settling the specification claims.

Conventions:
* JS strings are modelled by `String` / `List Char` (ASCII-range inputs).
* JS objects holding one spreadsheet row are modelled by association lists
  (`Rec`); `recGet` mirrors JS property lookup where a later assignment to
  the same key overwrites an earlier one.
* The JS idiom `x || d` on strings (absent / empty string is falsy) is
  `jsOr`.
-/

/-- A spreadsheet row object: column name to cell value.  Built by the
parser by assigning `row[header] = value` in header order, so a duplicate
header's later assignment wins (see `recGet`). -/
abbrev Rec : Type := List (String × String)

/-- JS property lookup on a row object: the last assignment to a key wins,
a key never assigned reads as `undefined` (`none`). -/
def recGet (r : Rec) (key : String) : Option String :=
  ((List.filter (fun p => p.1 = key) r).getLast?).map (fun p => p.2)

/-- JS `v || d` where `v` is `undefined` (`none`) or a string: both
`undefined` and the empty string are falsy. -/
def jsOr (v : Option String) (d : String) : String :=
  match v with
  | none => d
  | some s => if s = "" then d else s

/-- JS regex `\s` / `String.prototype.trim` whitespace, over the character
range our inputs use: space, tab, newline, carriage return, vertical tab,
form feed, no-break space. -/
def isJsWs (c : Char) : Bool :=
  c = ' ' ∨ c = '\t' ∨ c = '\n' ∨ c = '\r' ∨
    c = '\x0b' ∨ c = '\x0c' ∨ c = '\u00A0'

/-- JS `s.trim()`: strip leading and trailing whitespace. -/
def jsTrim (s : String) : String :=
  ⟨((s.data.dropWhile isJsWs).reverse.dropWhile isJsWs).reverse⟩

/-- Decimal digits of a natural number, most significant first
(models JS number-to-string conversion in a template literal).
Fuel-based so the kernel can evaluate it; `n + 1` fuel always suffices. -/
def natDigitsAux : Nat → Nat → List Char
  | 0, _ => []
  | fuel + 1, n =>
    if n < 10 then [Nat.digitChar n]
    else natDigitsAux fuel (n / 10) ++ [Nat.digitChar (n % 10)]

/-- Decimal string of a natural number, as JS `${n}` renders it. -/
def natRepr (n : Nat) : String := ⟨natDigitsAux (n + 1) n⟩

/-- Value of a decimal digit string (proof helper: left inverse of
`natDigitsAux`). -/
def digitsVal (cs : List Char) : Nat :=
  cs.foldl (fun acc c => acc * 10 + (c.toNat - 48)) 0

/-- Decidable equality for `Except`, so parser outcomes can be computed on
concrete inputs. -/
instance exceptDecEq {ε α : Type} [DecidableEq ε] [DecidableEq α] :
    DecidableEq (Except ε α) := fun a b =>
  match a, b with
  | .error e, .error f =>
    if h : e = f then .isTrue (by rw [h]) else .isFalse (by simp [h])
  | .ok x, .ok y =>
    if h : x = y then .isTrue (by rw [h]) else .isFalse (by simp [h])
  | .error _, .ok _ => .isFalse (by simp)
  | .ok _, .error _ => .isFalse (by simp)

namespace Generator

/-- Characters kept by the sanitizer regex `[^a-zA-Z0-9\s\-_]` (everything
else is deleted): ASCII letters, digits, whitespace, hyphen, underscore. -/
def keepChar (c : Char) : Bool :=
  (('a' ≤ c ∧ c ≤ 'z') ∨ ('A' ≤ c ∧ c ≤ 'Z') ∨ ('0' ≤ c ∧ c ≤ '9')) ∨
    isJsWs c ∨ c = '-' ∨ c = '_'

/-- JS `str.replace(/\s+/g, '_')`: each maximal run of whitespace becomes
one underscore.  The boolean flag records whether the previous character
was whitespace (i.e. we are inside a run already replaced). -/
def collapseWsAux : List Char → Bool → List Char
  | [], _ => []
  | c :: rest, prevWs =>
    if isJsWs c then
      if prevWs then collapseWsAux rest true
      else '_' :: collapseWsAux rest true
    else c :: collapseWsAux rest false

/-- `clientName.replace(/[^a-zA-Z0-9\s\-_]/g, '').replace(/\s+/g, '_').substring(0, 50)` -/
def sanitizeName (clientName : String) : String :=
  ⟨List.take 50 (collapseWsAux (clientName.data.filter keepChar) false)⟩

/-- `Generator.generateFilename` (identical in `src/unnamed/part_003` lines
398-406 and `src/js/generator.js` lines 135-139):
`rowData['Client'] || Document_${index+1}`, sanitized, with the fixed
suffix appended. -/
def generateFilename (rowData : Rec) (index : Nat) : String :=
  let clientName := jsOr (recGet rowData "Client") ("Document_" ++ natRepr (index + 1))
  sanitizeName clientName ++ "_Specification.docx"

end Generator

namespace Parser

/-- The character loop of `Parser.parseCSVText` (`src/unnamed/part_003`
lines 133-173).  Arguments mirror the JS locals `lines`, `currentLine`,
`currentValue` (as a char list, appended at the end) and `insideQuotes`.
The JS one-character lookahead (`nextChar`) and the `i++` skips appear
here as two-character patterns. -/
def parseCSVTextAux :
    List Char → List (List String) → List String → List Char → Bool →
      List (List String)
  | [], lines, line, value, _ =>
    -- `if (currentValue || currentLine.length > 0)` final flush
    if value ≠ [] ∨ line ≠ [] then lines ++ [line ++ [String.mk value]]
    else lines
  | '"' :: '"' :: rest, lines, line, value, true =>
    -- escaped quote inside a quoted field
    parseCSVTextAux rest lines line (value ++ ['"']) true
  | '"' :: rest, lines, line, value, inQ =>
    -- toggle quote mode
    parseCSVTextAux rest lines line value (!inQ)
  | '\r' :: '\n' :: rest, lines, line, value, false =>
    -- CRLF line terminator outside quotes (the `\n` is skipped)
    parseCSVTextAux rest (lines ++ [line ++ [String.mk value]]) [] [] false
  | c :: rest, lines, line, value, inQ =>
    if c = ',' ∧ inQ = false then
      parseCSVTextAux rest lines (line ++ [String.mk value]) [] inQ
    else if c = '\n' ∧ inQ = false then
      parseCSVTextAux rest (lines ++ [line ++ [String.mk value]]) [] [] inQ
    else if c = '\r' then
      -- a CR that is not a CRLF terminator is dropped
      parseCSVTextAux rest lines line value inQ
    else
      parseCSVTextAux rest lines line (value ++ [c]) inQ

/-- `Parser.parseCSVText`: quote-aware CSV scanner. -/
def parseCSVText (text : String) : List (List String) :=
  parseCSVTextAux text.data [] [] [] false

/-- The blank-row test `line.every(cell => !cell || cell.trim() === '')`
shared by `parseCSV` and `parseExcel`. -/
def isBlankRow (line : List String) : Bool :=
  line.all (fun cell => cell = "" ∨ jsTrim cell = "")

/-- `headers.forEach((header, index) => rowObj[header] = line[index] !== undefined ? line[index] : '')`:
the row object as an association list in header order (a duplicate
header's later assignment wins under `recGet`). -/
def buildRow (headers line : List String) : Rec :=
  headers.enum.map (fun p => (p.2, line.getD p.1 ""))

/-- The `EmptyData` failure of §7 of the specification
(`'... must have at least a header row and one data row'`). -/
inductive ParseError
  | emptyData
deriving DecidableEq

/-- `{headers, rows}` as resolved by the parser. -/
structure ParseResult where
  headers : List String
  rows : List Rec
deriving DecidableEq

/-- The data-row loop shared by `parseCSV` (lines 103-115) and
`parseExcel` (lines 57-69): skip blank rows, zip the rest against the
headers. -/
def rowsFromLines (headers : List String) (dataLines : List (List String)) :
    List Rec :=
  (dataLines.filter (fun l => !isBlankRow l)).map (buildRow headers)

/-- `Parser.parseCSV` (`src/unnamed/part_003` lines 87-126) from the point
where the file's text has been read (the `FileReader` plumbing is
browser I/O). -/
def parseCSV (text : String) : Except ParseError ParseResult :=
  let lines := parseCSVText text
  if lines.length < 2 then .error .emptyData
  else
    let headers := (lines.headD []).map jsTrim
    .ok ⟨headers, rowsFromLines headers (lines.drop 1)⟩

/-- `Parser.parseExcel` (`src/unnamed/part_003` lines 29-80) from the point
where the external SheetJS decoder has produced the rectangular grid of
formatted string cells (`jsonData`); the binary `.xlsx` decode is an
external library, not code of this repository. -/
def parseExcelGrid (jsonData : List (List String)) :
    Except ParseError ParseResult :=
  if jsonData.length < 2 then .error .emptyData
  else
    let headers := (jsonData.headD []).map jsTrim
    .ok ⟨headers, rowsFromLines headers (jsonData.drop 1)⟩

/-- A character the scanner treats as ordinary content in every state:
not a quote, comma, newline or carriage return. -/
def plainChar (c : Char) : Bool :=
  !(c = '"') && !(c = ',') && !(c = '\n') && !(c = '\r')

end Parser

/-- JS `str.split(pattern).join(replacement)` for a nonempty pattern:
replace each non-overlapping occurrence of `pat`, scanning left to right.
Fuel-based (`s.length` fuel suffices: every step consumes at least one
character) so the kernel can evaluate it. -/
def replaceAllAux (pat rep : List Char) : Nat → List Char → List Char
  | 0, s => s
  | _ + 1, [] => []
  | fuel + 1, c :: rest =>
    if pat.isPrefixOf (c :: rest) ∧ pat ≠ [] then
      rep ++ replaceAllAux pat rep fuel (rest.drop (pat.length - 1))
    else
      c :: replaceAllAux pat rep fuel rest

/-- JS `s.split(pat).join(rep)` on strings (`pat` nonempty). -/
def replaceAll (s pat rep : String) : String :=
  ⟨replaceAllAux pat.data rep.data s.data.length s.data⟩

/-- JS `str.replace(pat, rep)` with a *string* pattern: replace the first
occurrence only (a no-op when `pat` does not occur). -/
def replaceFirst (pat rep : List Char) : List Char → List Char
  | [] => []
  | c :: rest =>
    if pat.isPrefixOf (c :: rest) then rep ++ (c :: rest).drop pat.length
    else c :: replaceFirst pat rep rest

namespace Generator

/-- `Generator.mappings` (`src/unnamed/part_003` lines 186-198): column
name to placeholder token.  `src/js/generator.js` lines 9-21 store the
tags without brackets and wrap them as `[tag]` at the call site, yielding
these same placeholder strings. -/
def mappings : List (String × String) :=
  [("Client", "[INSERT_CLIENT_NAME]"),
   ("Desired Completion Date", "[INSERT_DATE]"),
   ("Room Details (Workload)", "[INSERT_ROOM_DETAILS]"),
   ("Functional Requirements", "[INSERT_FUNCTIONAL_REQUIREMENTS]"),
   ("Control System Requirements", "[INSERT_CONTROL_SYSTEM]"),
   ("Preferred Brands or Technology Standards", "[INSERT_BRANDS_STANDARDS]"),
   ("Existing Equipment Integration", "[INSERT_EXISTING_INTEGRATION]"),
   ("Network Strategy", "[INSERT_CLIENT_NETWORK_OR_DEDICATED_AV]"),
   ("Cabling & Infrastructure", "[INSERT_CABLING_DETAILS]"),
   ("Budgetary Estimates", "[INSERT_BUDGET]"),
   ("Site Constraints", "[INSERT_SITE_CONSTRAINTS]")]

/-- `Generator.fileMappings.columns` (part_003 lines 201-204). -/
def fileMappingsColumns : List String := ["Site Photos", "Client Drawings"]

/-- `Generator.fileMappings.placeholder`. -/
def fileMappingsPlaceholder : String := "[LIST_UPLOADED_FILES_OR_LINKS_HERE]"

/-- How the DOM serializes one character of a text node back out of
`innerHTML`: `&`, `<`, `>` (and U+00A0) become entities, every other
character — quotes included — stays itself. -/
def escapeChar (c : Char) : List Char :=
  if c = '&' then "&amp;".data
  else if c = '<' then "&lt;".data
  else if c = '>' then "&gt;".data
  else if c = '\u00A0' then "&nbsp;".data
  else [c]

/-- `Generator.escapeHtml` (part_003 lines 271-276; identical in
`src/js/generator.js` lines 175-180): `if (!text) return ''`, then DOM
escaping via `div.textContent = text; return div.innerHTML`.  The DOM is
the browser's, not code of this repository; the HTML standard's text-node
serialization is `escapeChar` applied to every character. -/
def escapeHtml (text : String) : String :=
  if text = "" then "" else ⟨(text.data.map escapeChar).flatten⟩

/-- One step of the mapping loop of `fillTemplate` (part_003 line 251):
the string actually substituted for `placeholder`, namely
`escapedValue || placeholder` where
`escapedValue = escapeHtml(rowData[column] || '')`. -/
def substValue (rowData : Rec) (column placeholder : String) : String :=
  let value := jsOr (recGet rowData column) ""
  let escapedValue := escapeHtml value
  if escapedValue = "" then placeholder else escapedValue

/-- The combined file-placeholder content of `fillTemplate` (part_003
lines 255-260): the truthy trimmed values of the file columns joined with
newlines, or `'No files uploaded'`. -/
def fileContent (rowData : Rec) : String :=
  let fileValues := String.intercalate "\n"
    ((fileMappingsColumns.filterMap (recGet rowData)).filter
      (fun v => v ≠ "" ∧ jsTrim v ≠ ""))
  if fileValues = "" then "No files uploaded" else fileValues

/-- `Generator.fillTemplate` (part_003 lines 239-264), with the loaded
`this.template` passed explicitly (the claims do not exercise the
template-not-loaded throw). -/
def fillTemplate (template : String) (rowData : Rec) : String :=
  let filled := mappings.foldl
    (fun html p => replaceAll html p.2 (substValue rowData p.1 p.2)) template
  replaceAll filled fileMappingsPlaceholder (escapeHtml (fileContent rowData))

/-- `doc.filename.replace('.docx', '')` in `createZip` (part_003 line
455): strip the first occurrence of `.docx`. -/
def stripDocx (s : String) : String := ⟨replaceFirst ".docx".data [] s.data⟩

/-- One rewrite candidate `${baseName}_${counter}.docx` of `createZip`. -/
def candidateName (original : String) (counter : Nat) : String :=
  stripDocx original ++ "_" ++ natRepr counter ++ ".docx"

/-- The `while (usedNames.has(filename))` loop of `createZip`, with fuel;
`used.length + 1` tries always reach a free name. -/
def resolveNameAux (used : List String) (original : String) :
    Nat → Nat → String
  | counter, 0 => candidateName original counter
  | counter, fuel + 1 =>
    let cand := candidateName original counter
    if cand ∈ used then resolveNameAux used original (counter + 1) fuel
    else cand

/-- The name under which one document enters the archive, given the names
already reserved. -/
def resolveName (used : List String) (original : String) : String :=
  if original ∈ used then resolveNameAux used original 1 (used.length + 1)
  else original

/-- The document loop of `createZip`, threading the `usedNames` set (as a
list; only membership is used). -/
def zipNamesAux : List String → List String → List String
  | [], _ => []
  | d :: ds, used =>
    let name := resolveName used d
    name :: zipNamesAux ds (name :: used)

/-- The entry names `Generator.createZip` (part_003 lines 443-469) gives
the documents, in order.  The archive bytes themselves come from the
external JSZip library.  `createZip` in `src/js/generator.js` lines
157-173 differs only in rewriting via
`doc.filename.replace('.docx', '_n.docx')`, which produces the same names
whenever the original filename contains `.docx`. -/
def zipNames (documents : List String) : List String := zipNamesAux documents []

end Generator

namespace GeneratorJs

/-- `Generator.fillHtmlTemplate` (`src/js/generator.js` lines 69-82): per
mapping, `html.split('[' + tag + ']').join(escapeHtml(row[col] || ''))`.
`if (!this.htmlTemplate) return ''` is modelled by the empty-template
test (`null` and `''` are both falsy). -/
def fillHtmlTemplate (htmlTemplate : String) (row : Rec) : String :=
  if htmlTemplate = "" then ""
  else
    Generator.mappings.foldl
      (fun html p =>
        replaceAll html p.2 (Generator.escapeHtml (jsOr (recGet row p.1) "")))
      htmlTemplate

end GeneratorJs

namespace Preview

/-- The state of the Preview module (`src/unnamed/part_002`): the parsed
`rows` and the cursor `currentIndex`.  The row type is a parameter; the
only use `Preview` makes of a row is handing `rows[currentIndex]` to the
template fill inside `render`, which draws into an iframe (browser I/O
outside these claims). -/
structure State (α : Type) where
  rows : List α
  currentIndex : Nat
deriving DecidableEq

/-- `Preview.setRows` (lines 26-29): replace the rows, reset the cursor. -/
def setRows {α : Type} (_s : State α) (rows : List α) : State α :=
  { rows := rows, currentIndex := 0 }

/-- `Preview.next` (lines 53-60): `currentIndex < rows.length - 1` guards
the increment; returns whether navigation happened. -/
def next {α : Type} (s : State α) : Bool × State α :=
  if s.currentIndex < s.rows.length - 1 then
    (true, { s with currentIndex := s.currentIndex + 1 })
  else (false, s)

/-- `Preview.previous` (lines 66-73): `currentIndex > 0` guards the
decrement; returns whether navigation happened. -/
def previous {α : Type} (s : State α) : Bool × State α :=
  if s.currentIndex > 0 then
    (true, { s with currentIndex := s.currentIndex - 1 })
  else (false, s)

/-- `Preview.clear` (lines 110-120), state part. -/
def clear {α : Type} (_s : State α) : State α :=
  { rows := [], currentIndex := 0 }

end Preview

/-! ## Helper lemmas -/

theorem string_length_mk (l : List Char) : (String.mk l).length = l.length := rfl

/-- Every character the whitespace-collapse emits is either the inserted
underscore or a non-whitespace character of the input. -/
theorem collapseWsAux_mem {c : Char} :
    ∀ (cs : List Char) (b : Bool), c ∈ Generator.collapseWsAux cs b →
      c = '_' ∨ (c ∈ cs ∧ isJsWs c = false) := by
  intro cs
  induction cs with
  | nil => intro b h; simp [Generator.collapseWsAux] at h
  | cons d rest ih =>
    intro b h
    simp only [Generator.collapseWsAux] at h
    by_cases hw : isJsWs d
    · rw [if_pos hw] at h
      rcases b with _ | _
      · simp only [Bool.false_eq_true, if_false, List.mem_cons] at h
        rcases h with h | h
        · exact Or.inl h
        · rcases ih true h with h' | ⟨hmem, hns⟩
          · exact Or.inl h'
          · exact Or.inr ⟨List.mem_cons_of_mem _ hmem, hns⟩
      · simp only [if_true] at h
        rcases ih true h with h' | ⟨hmem, hns⟩
        · exact Or.inl h'
        · exact Or.inr ⟨List.mem_cons_of_mem _ hmem, hns⟩
    · rw [if_neg hw] at h
      rcases List.mem_cons.mp h with h | h
      · subst h
        exact Or.inr ⟨List.mem_cons_self _ _, Bool.of_not_eq_true hw⟩
      · rcases ih false h with h' | ⟨hmem, hns⟩
        · exact Or.inl h'
        · exact Or.inr ⟨List.mem_cons_of_mem _ hmem, hns⟩

/-- Every character of a sanitized name is an ASCII letter, a digit, a
hyphen or an underscore. -/
theorem sanitizeName_chars (s : String) :
    ∀ c ∈ (Generator.sanitizeName s).data,
      ('a' ≤ c ∧ c ≤ 'z') ∨ ('A' ≤ c ∧ c ≤ 'Z') ∨ ('0' ≤ c ∧ c ≤ '9') ∨
        c = '-' ∨ c = '_' := by
  intro c hc
  have hc' : c ∈ Generator.collapseWsAux (s.data.filter Generator.keepChar) false :=
    List.mem_of_mem_take hc
  rcases collapseWsAux_mem _ false hc' with h | ⟨hmem, hns⟩
  · exact Or.inr (Or.inr (Or.inr (Or.inr h)))
  · have hk : Generator.keepChar c = true := (List.mem_filter.mp hmem).2
    simp only [Generator.keepChar, Bool.or_eq_true, decide_eq_true_eq] at hk
    rcases hk with hk | hk
    · rcases hk with hk | hk | hk
      · exact Or.inl hk
      · exact Or.inr (Or.inl hk)
      · exact Or.inr (Or.inr (Or.inl hk))
    · rcases hk with hk | hk | hk
      · rw [hk] at hns; exact absurd hns (by decide)
      · exact Or.inr (Or.inr (Or.inr (Or.inl hk)))
      · exact Or.inr (Or.inr (Or.inr (Or.inr hk)))

/-- A sanitized name never exceeds 50 characters. -/
theorem sanitizeName_length (s : String) :
    (Generator.sanitizeName s).length ≤ 50 := by
  have : (Generator.sanitizeName s).length =
      (List.take 50 (Generator.collapseWsAux
        (s.data.filter Generator.keepChar) false)).length := rfl
  rw [this, List.length_take]
  exact min_le_left _ _

/-! ## Claims -/

/-- C5: `generateFilename(record, index)` is a pure function of the
record's `Client` value; it falls back to `Document_<index+1>` when that
value is absent, sanitizes (remove every character that is not
alphanumeric/whitespace/hyphen/underscore, collapse whitespace runs to
one underscore, truncate to 50 characters) and appends the fixed suffix
`_Specification.docx`. -/
theorem C5_generateFilename (rowData : Rec) (index : Nat) :
    Generator.generateFilename rowData index =
      Generator.sanitizeName
        (jsOr (recGet rowData "Client") ("Document_" ++ natRepr (index + 1))) ++
        "_Specification.docx" ∧
    (∃ base : String,
      Generator.generateFilename rowData index = base ++ "_Specification.docx" ∧
      base.length ≤ 50 ∧
      ∀ c ∈ base.data,
        ('a' ≤ c ∧ c ≤ 'z') ∨ ('A' ≤ c ∧ c ≤ 'Z') ∨ ('0' ≤ c ∧ c ≤ '9') ∨
          c = '-' ∨ c = '_') ∧
    (recGet rowData "Client" = none →
      Generator.generateFilename rowData index =
        Generator.sanitizeName ("Document_" ++ natRepr (index + 1)) ++
          "_Specification.docx") := by
  refine ⟨rfl, ⟨Generator.sanitizeName _, rfl, sanitizeName_length _,
    sanitizeName_chars _⟩, ?_⟩
  intro h
  unfold Generator.generateFilename
  rw [h]
  rfl

/-- Witness for C5 at the specification's own test inputs. -/
theorem C5_generateFilename_witness :
    Generator.generateFilename [] 2 =
      Generator.sanitizeName ("Document_" ++ natRepr 3) ++
        "_Specification.docx" ∧
    Generator.generateFilename [("Client", "Acme & Sons, Inc.")] 0 =
      "Acme_Sons_Inc_Specification.docx" ∧
    Generator.generateFilename [] 2 = "Document_3_Specification.docx" :=
  ⟨(C5_generateFilename [] 2).2.2 rfl, by decide, by decide⟩

/-- C10: the `Document_<index+1>` fallback fires not only when the
`Client` field is missing but also when it is the empty string (any falsy
value), so `Client: ""` and no `Client` key yield the same filename. -/
theorem C10_generateFilename_falsy (rowData : Rec) (index : Nat)
    (h : recGet rowData "Client" = none ∨ recGet rowData "Client" = some "") :
    Generator.generateFilename rowData index =
      Generator.generateFilename [] index ∧
    Generator.generateFilename rowData index =
      Generator.sanitizeName ("Document_" ++ natRepr (index + 1)) ++
        "_Specification.docx" := by
  have hfall :
      jsOr (recGet rowData "Client") ("Document_" ++ natRepr (index + 1)) =
        "Document_" ++ natRepr (index + 1) := by
    rcases h with h | h <;> rw [h] <;> rfl
  constructor
  · unfold Generator.generateFilename
    rw [hfall]
    rfl
  · unfold Generator.generateFilename
    rw [hfall]

/-- Witness for C10: a record whose `Client` is the empty string. -/
theorem C10_generateFilename_falsy_witness :
    Generator.generateFilename [("Client", "")] 2 =
      Generator.generateFilename [] 2 ∧
    Generator.generateFilename [("Client", "")] 2 =
      "Document_3_Specification.docx" := by
  have h := C10_generateFilename_falsy [("Client", "")] 2 (Or.inr (by decide))
  exact ⟨h.1, by decide⟩

/-- C7: the Preview navigator keeps `0 <= currentIndex < rows.length`
whenever `rows` is non-empty: `setRows` resets the cursor to 0; `next`
increments and returns `true` exactly when the cursor is not at the last
index, otherwise it is a no-op returning `false`; `previous` decrements
and returns `true` exactly when the cursor is not at index 0, otherwise a
no-op returning `false`.  After `setRows` with three rows, `previous`
returns `false` with the cursor at 0; `next` calls take the cursor
0 → 1 → 2, and a further `next` returns `false` leaving the cursor at 2. -/
theorem C7_preview_navigation {α : Type} (s : Preview.State α) :
    (∀ rows : List α, (Preview.setRows s rows).currentIndex = 0 ∧
      (Preview.setRows s rows).rows = rows) ∧
    (s.currentIndex < s.rows.length →
      (Preview.next s).2.currentIndex < s.rows.length ∧
      (Preview.previous s).2.currentIndex < s.rows.length) ∧
    ((Preview.next s).2.rows = s.rows ∧ (Preview.previous s).2.rows = s.rows) ∧
    ((Preview.next s).1 = true ↔ s.currentIndex < s.rows.length - 1) ∧
    ((Preview.next s).1 = true →
      (Preview.next s).2.currentIndex = s.currentIndex + 1) ∧
    ((Preview.next s).1 = false → (Preview.next s).2 = s) ∧
    ((Preview.previous s).1 = true ↔ 0 < s.currentIndex) ∧
    ((Preview.previous s).1 = true →
      (Preview.previous s).2.currentIndex = s.currentIndex - 1) ∧
    ((Preview.previous s).1 = false → (Preview.previous s).2 = s) ∧
    (∀ r0 r1 r2 : α,
      (Preview.previous (Preview.setRows s [r0, r1, r2])).1 = false ∧
      (Preview.previous (Preview.setRows s [r0, r1, r2])).2.currentIndex = 0 ∧
      (Preview.next (Preview.setRows s [r0, r1, r2])).1 = true ∧
      (Preview.next (Preview.setRows s [r0, r1, r2])).2.currentIndex = 1 ∧
      (Preview.next (Preview.next (Preview.setRows s [r0, r1, r2])).2).1 = true ∧
      (Preview.next
        (Preview.next (Preview.setRows s [r0, r1, r2])).2).2.currentIndex = 2 ∧
      (Preview.next (Preview.next
        (Preview.next (Preview.setRows s [r0, r1, r2])).2).2).1 = false ∧
      (Preview.next (Preview.next (Preview.next
        (Preview.setRows s [r0, r1, r2])).2).2).2.currentIndex = 2 ∧
      (Preview.next (Preview.next (Preview.next (Preview.next
        (Preview.setRows s [r0, r1, r2])).2).2).2).1 = false ∧
      (Preview.next (Preview.next (Preview.next (Preview.next
        (Preview.setRows s [r0, r1, r2])).2).2).2).2.currentIndex = 2) := by
  refine ⟨fun rows => ⟨rfl, rfl⟩, ?_, ?_, ?_, ?_, ?_, ?_, ?_, ?_, ?_⟩
  · intro hlt
    constructor
    · by_cases hc : s.currentIndex < s.rows.length - 1 <;>
        simp [Preview.next, hc] <;> omega
    · by_cases hc : s.currentIndex > 0 <;>
        simp [Preview.previous, hc] <;> omega
  · constructor
    · by_cases hc : s.currentIndex < s.rows.length - 1 <;> simp [Preview.next, hc]
    · by_cases hc : s.currentIndex > 0 <;> simp [Preview.previous, hc]
  · by_cases hc : s.currentIndex < s.rows.length - 1 <;> simp [Preview.next, hc]
  · by_cases hc : s.currentIndex < s.rows.length - 1 <;> simp [Preview.next, hc]
  · by_cases hc : s.currentIndex < s.rows.length - 1 <;> simp [Preview.next, hc]
  · by_cases hc : s.currentIndex > 0 <;> simp [Preview.previous, hc]
  · by_cases hc : s.currentIndex > 0 <;> simp [Preview.previous, hc]
  · by_cases hc : s.currentIndex > 0 <;> simp [Preview.previous, hc]
  · intro r0 r1 r2
    refine ⟨rfl, rfl, rfl, rfl, rfl, rfl, rfl, rfl, rfl, rfl⟩

/-- Witness for C7 on a concrete three-row state. -/
theorem C7_preview_navigation_witness :
    ((Preview.next (⟨[10, 20, 30], 0⟩ : Preview.State Nat)).2.currentIndex < 3 ∧
      (Preview.previous (⟨[10, 20, 30], 0⟩ : Preview.State Nat)).2.currentIndex < 3) ∧
    (Preview.next (⟨[10, 20, 30], 0⟩ : Preview.State Nat)).2.currentIndex = 0 + 1 :=
  ⟨(C7_preview_navigation ⟨[10, 20, 30], 0⟩).2.1 (by decide),
   (C7_preview_navigation ⟨[10, 20, 30], 0⟩).2.2.2.2.1 (by decide)⟩

/-- No escaped character expansion contains a raw `<` or `>`. -/
theorem escapeChar_no_angle (c : Char) :
    '<' ∉ Generator.escapeChar c ∧ '>' ∉ Generator.escapeChar c := by
  unfold Generator.escapeChar
  split_ifs with h1 h2 h3 h4
  · decide
  · decide
  · decide
  · decide
  · constructor
    · intro hmem
      rw [List.mem_singleton] at hmem
      exact h2 hmem.symm
    · intro hmem
      rw [List.mem_singleton] at hmem
      exact h3 hmem.symm

/-- The output of `escapeHtml` never contains a raw `<` or `>`. -/
theorem escapeHtml_no_angle (s : String) :
    '<' ∉ (Generator.escapeHtml s).data ∧ '>' ∉ (Generator.escapeHtml s).data := by
  unfold Generator.escapeHtml
  split_ifs with h
  · exact ⟨List.not_mem_nil _, List.not_mem_nil _⟩
  · constructor <;> intro hmem
    · rcases List.mem_flatten.mp hmem with ⟨l, hl, hcl⟩
      rcases List.mem_map.mp hl with ⟨c, _, rfl⟩
      exact (escapeChar_no_angle c).1 hcl
    · rcases List.mem_flatten.mp hmem with ⟨l, hl, hcl⟩
      rcases List.mem_map.mp hl with ⟨c, _, rfl⟩
      exact (escapeChar_no_angle c).2 hcl

/-- C2 counterexample: a value made of a double quote and a single quote
passes through the preview escaping unchanged — neither quote character
is replaced by an HTML entity, so the claim's five-character guarantee
fails on the quote characters. -/
theorem C2_escapeHtml_counterexample :
    Generator.escapeHtml "\"'" = "\"'" ∧
    Generator.substValue [("Client", "\"'")] "Client" "[INSERT_CLIENT_NAME]" =
      "\"'" := by
  constructor <;> decide

/-- C2 (amended): the preview escaping replaces `&`, `<` and `>` by HTML
entities but leaves `"` and `'` unchanged; in particular no output of
`escapeHtml` contains a raw `<` or `>`, so a value containing `<script>`
never yields a raw `<script>` tag. -/
theorem C2_escapeHtml_escapes (s : String) :
    ('<' ∉ (Generator.escapeHtml s).data ∧ '>' ∉ (Generator.escapeHtml s).data) ∧
    (¬ ("<script>".data <:+: (Generator.escapeHtml s).data)) ∧
    Generator.escapeHtml "&" = "&amp;" ∧
    Generator.escapeHtml "<" = "&lt;" ∧
    Generator.escapeHtml ">" = "&gt;" ∧
    Generator.escapeHtml "<script>alert('x')</script>" =
      "&lt;script&gt;alert('x')&lt;/script&gt;" := by
  refine ⟨escapeHtml_no_angle s, ?_, by decide, by decide, by decide, by decide⟩
  intro hinf
  exact (escapeHtml_no_angle s).1 (hinf.subset (by decide))

/-- Witness for C2 at the value `<script>`. -/
theorem C2_escapeHtml_escapes_witness :
    ('<' ∉ (Generator.escapeHtml "<script>").data ∧
      '>' ∉ (Generator.escapeHtml "<script>").data) ∧
    ¬ ("<script>".data <:+: (Generator.escapeHtml "<script>").data) :=
  ⟨(C2_escapeHtml_escapes "<script>").1, (C2_escapeHtml_escapes "<script>").2.1⟩

/-- C1 counterexample: filling the preview template of `part_003` with a
record whose mapped field is absent leaves the literal placeholder token
in the rendered output (`escapedValue || placeholder` falls back to the
placeholder, not to the empty string). -/
theorem C1_fillTemplate_counterexample :
    Generator.fillTemplate "Hello [INSERT_CLIENT_NAME]!" [] =
      "Hello [INSERT_CLIENT_NAME]!" ∧
    "[INSERT_CLIENT_NAME]".data <:+:
      (Generator.fillTemplate "Hello [INSERT_CLIENT_NAME]!" []).data := by
  constructor
  · decide
  · exact ⟨"Hello ".data, "!".data, by decide⟩

/-- C1 (amended): on a record where a mapped field is absent or empty,
the `src/js/generator.js` preview fill (`fillHtmlTemplate`) substitutes
the empty string for the placeholder, while the `src/unnamed/part_003`
preview fill (`fillTemplate`) substitutes the placeholder for itself, so
there the literal token stays visible. -/
theorem C1_fill_absent_field (rowData : Rec) (column placeholder : String)
    (h : recGet rowData column = none ∨ recGet rowData column = some "") :
    Generator.substValue rowData column placeholder = placeholder ∧
    Generator.escapeHtml (jsOr (recGet rowData column) "") = "" ∧
    GeneratorJs.fillHtmlTemplate "Hello [INSERT_CLIENT_NAME]!" [] = "Hello !" ∧
    Generator.fillTemplate "Hello [INSERT_CLIENT_NAME]!" [] =
      "Hello [INSERT_CLIENT_NAME]!" := by
  have hval : jsOr (recGet rowData column) "" = "" := by
    rcases h with h | h <;> rw [h] <;> rfl
  refine ⟨?_, ?_, by decide, by decide⟩
  · unfold Generator.substValue
    rw [hval]
    rfl
  · rw [hval]
    rfl

/-- Witness for C1 (amended) at an absent field of the empty record. -/
theorem C1_fill_absent_field_witness :
    Generator.substValue [] "Client" "[INSERT_CLIENT_NAME]" =
      "[INSERT_CLIENT_NAME]" ∧
    Generator.escapeHtml (jsOr (recGet [] "Client") "") = "" :=
  ⟨(C1_fill_absent_field [] "Client" "[INSERT_CLIENT_NAME]" (Or.inl rfl)).1,
   (C1_fill_absent_field [] "Client" "[INSERT_CLIENT_NAME]" (Or.inl rfl)).2.1⟩

/-- C3 counterexample: a header row followed only by a blank (whitespace)
row is not rejected with `EmptyData` — `parseCSV` succeeds and returns an
empty row sequence, because the two-line check counts raw scanner lines
before blank rows are filtered. -/
theorem C3_parseCSV_counterexample :
    Parser.parseCSV "a,b\n \n" = .ok ⟨["a", "b"], []⟩ ∧
    Parser.parseCSV "a,b\n \n" ≠ .error .emptyData := by
  constructor <;> decide

/-- C3 (amended): `parseCSV` fails with `EmptyData` exactly when the
quote-aware scanner yields fewer than two lines, counting blank lines
(and `parseExcel` exactly when the decoded grid has fewer than two rows);
an input whose header is followed only by blank rows passes the check and
yields an empty row sequence. -/
theorem C3_emptyData_iff (text : String) (grid : List (List String)) :
    (Parser.parseCSV text = .error .emptyData ↔
      (Parser.parseCSVText text).length < 2) ∧
    (Parser.parseExcelGrid grid = .error .emptyData ↔ grid.length < 2) ∧
    Parser.parseCSV "a,b\n \n" = .ok ⟨["a", "b"], []⟩ := by
  refine ⟨?_, ?_, by decide⟩
  · by_cases hc : (Parser.parseCSVText text).length < 2 <;>
      simp [Parser.parseCSV, hc]
  · by_cases hc : grid.length < 2 <;> simp [Parser.parseExcelGrid, hc]

/-- C8: a successful parse returns exactly the non-blank data rows, in
original order, zipped against the headers; blank rows are dropped
wherever they occur.  Stated for the CSV path and for the Excel path from
the decoded grid onward. -/
theorem C8_parse_rows (text : String) (r : Parser.ParseResult)
    (h : Parser.parseCSV text = .ok r) :
    (r.rows = (((Parser.parseCSVText text).drop 1).filter
        (fun l => !Parser.isBlankRow l)).map (Parser.buildRow r.headers) ∧
      r.rows.length = (((Parser.parseCSVText text).drop 1).filter
        (fun l => !Parser.isBlankRow l)).length) ∧
    ∀ (grid : List (List String)) (r2 : Parser.ParseResult),
      Parser.parseExcelGrid grid = .ok r2 →
      r2.rows = ((grid.drop 1).filter (fun l => !Parser.isBlankRow l)).map
          (Parser.buildRow r2.headers) ∧
      r2.rows.length =
        ((grid.drop 1).filter (fun l => !Parser.isBlankRow l)).length := by
  constructor
  · simp only [Parser.parseCSV] at h
    by_cases hc : (Parser.parseCSVText text).length < 2
    · rw [if_pos hc] at h; cases h
    · rw [if_neg hc] at h
      cases h
      exact ⟨rfl, by simp [Parser.rowsFromLines]⟩
  · intro grid r2 h2
    simp only [Parser.parseExcelGrid] at h2
    by_cases hc : grid.length < 2
    · rw [if_pos hc] at h2; cases h2
    · rw [if_neg hc] at h2
      cases h2
      exact ⟨rfl, by simp [Parser.rowsFromLines]⟩

/-- Witness for C8 on a four-line CSV with one blank row. -/
theorem C8_parse_rows_witness :
    Parser.parseCSV "a,b\n1,2\n \n3,4" =
      .ok ⟨["a", "b"], [[("a", "1"), ("b", "2")], [("a", "3"), ("b", "4")]]⟩ ∧
    (⟨["a", "b"], [[("a", "1"), ("b", "2")], [("a", "3"), ("b", "4")]]⟩ :
        Parser.ParseResult).rows.length =
      (((Parser.parseCSVText "a,b\n1,2\n \n3,4").drop 1).filter
        (fun l => !Parser.isBlankRow l)).length :=
  ⟨by decide, (C8_parse_rows "a,b\n1,2\n \n3,4" _ (by decide)).1.2⟩

/-- In every scanner state, a plain character is simply appended to the
current value. -/
theorem parseCSVTextAux_plain_step (c : Char) (rest : List Char)
    (lines : List (List String)) (line : List String) (value : List Char)
    (inQ : Bool) (h : Parser.plainChar c = true) :
    Parser.parseCSVTextAux (c :: rest) lines line value inQ =
      Parser.parseCSVTextAux rest lines line (value ++ [c]) inQ := by
  simp only [Parser.plainChar, Bool.and_eq_true, Bool.not_eq_true', decide_eq_false_iff_not]
    at h
  obtain ⟨⟨⟨hq, hcm⟩, hn⟩, hr⟩ := h
  rw [Parser.parseCSVTextAux.eq_5 _ _ _ _ _ _ (fun h' => hq h')
      (fun _ h' _ _ => hq h') (fun _ h' _ _ => hr h')]
  rw [if_neg (by simp [hcm]), if_neg (by simp [hn]), if_neg hr]

/-- A run of plain characters is consumed into the current value. -/
theorem parseCSVTextAux_plain_run (cs : List Char)
    (h : ∀ c ∈ cs, Parser.plainChar c = true) :
    ∀ (rest : List Char) (lines : List (List String)) (line : List String)
      (value : List Char) (inQ : Bool),
      Parser.parseCSVTextAux (cs ++ rest) lines line value inQ =
        Parser.parseCSVTextAux rest lines line (value ++ cs) inQ := by
  induction cs with
  | nil => intro rest lines line value inQ; simp
  | cons c cs ih =>
    intro rest lines line value inQ
    have hc := h c (List.mem_cons_self _ _)
    rw [List.cons_append, parseCSVTextAux_plain_step c _ _ _ _ _ hc,
      ih (fun d hd => h d (List.mem_cons_of_mem _ hd)) rest]
    simp

/-- C4: the scanner treats a comma inside double quotes as literal, turns
a doubled double-quote into one literal quote, terminates lines at both
`\n` and `\r\n` outside quotes, and emits a final line for trailing
content without a terminator; the spec's own example
`"Smith, ""Bob"" Jones"` parses to the single field `Smith, "Bob" Jones`. -/
theorem C4_parseCSVText_scanner (a b : String)
    (ha : ∀ c ∈ a.data, Parser.plainChar c = true)
    (hb : ∀ c ∈ b.data, Parser.plainChar c = true) (hbne : b ≠ "") :
    Parser.parseCSVText "\"Smith, \"\"Bob\"\" Jones\"" =
      [["Smith, \"Bob\" Jones"]] ∧
    Parser.parseCSVText "\"a,b\",c" = [["a,b", "c"]] ∧
    Parser.parseCSVText (a ++ "\n" ++ b) = [[a], [b]] ∧
    Parser.parseCSVText (a ++ "\r\n" ++ b) = [[a], [b]] ∧
    (a ≠ "" → Parser.parseCSVText a = [[a]]) := by
  have hbdata : b.data ≠ [] := fun hnil => hbne (by
    cases b
    simp only at hnil
    simp [hnil])
  refine ⟨by decide, by decide, ?_, ?_, ?_⟩
  · show Parser.parseCSVTextAux (a ++ "\n" ++ b).data [] [] [] false = _
    rw [String.data_append, String.data_append]
    show Parser.parseCSVTextAux ((a.data ++ ['\n']) ++ b.data) [] [] [] false = _
    rw [List.append_assoc, parseCSVTextAux_plain_run a.data ha]
    show Parser.parseCSVTextAux ('\n' :: b.data) [] [] a.data false = _
    rw [Parser.parseCSVTextAux.eq_5 _ _ _ _ _ _ (by decide)
        (fun _ h _ _ => absurd h (by decide)) (fun _ h _ _ => absurd h (by decide)),
      if_neg (by decide), if_pos (by decide)]
    rw [← List.append_nil b.data, parseCSVTextAux_plain_run b.data hb]
    rw [Parser.parseCSVTextAux.eq_1]
    rw [if_pos (Or.inl (by simpa using hbdata))]
    rfl
  · show Parser.parseCSVTextAux (a ++ "\r\n" ++ b).data [] [] [] false = _
    rw [String.data_append, String.data_append]
    show Parser.parseCSVTextAux ((a.data ++ ['\r', '\n']) ++ b.data) [] [] [] false = _
    rw [List.append_assoc, parseCSVTextAux_plain_run a.data ha]
    show Parser.parseCSVTextAux ('\r' :: '\n' :: b.data) [] [] a.data false = _
    rw [Parser.parseCSVTextAux.eq_4]
    rw [← List.append_nil b.data, parseCSVTextAux_plain_run b.data hb]
    rw [Parser.parseCSVTextAux.eq_1]
    rw [if_pos (Or.inl (by simpa using hbdata))]
    rfl
  · intro hane
    have hadata : a.data ≠ [] := fun hnil => hane (by
      cases a
      simp only at hnil
      simp [hnil])
    show Parser.parseCSVTextAux a.data [] [] [] false = _
    rw [← List.append_nil a.data, parseCSVTextAux_plain_run a.data ha]
    rw [Parser.parseCSVTextAux.eq_1]
    rw [if_pos (Or.inl (by simpa using hadata))]
    rfl

/-- Witness for C4 on one-character plain fields. -/
theorem C4_parseCSVText_scanner_witness :
    Parser.parseCSVText ("x" ++ "\n" ++ "y") = [["x"], ["y"]] ∧
    Parser.parseCSVText ("x" ++ "\r\n" ++ "y") = [["x"], ["y"]] ∧
    Parser.parseCSVText "x" = [["x"]] :=
  ⟨(C4_parseCSVText_scanner "x" "y" (by decide) (by decide) (by decide)).2.2.1,
   (C4_parseCSVText_scanner "x" "y" (by decide) (by decide) (by decide)).2.2.2.1,
   (C4_parseCSVText_scanner "x" "y" (by decide) (by decide) (by decide)).2.2.2.2
     (by decide)⟩

/-- No cell the scanner ever produces contains a carriage return,
provided the accumulated state contains none. -/
theorem parseCSVTextAux_no_cr
    (cs : List Char) (lines : List (List String)) (line : List String)
    (value : List Char) (inQ : Bool)
    (hlines : ∀ l ∈ lines, ∀ cell ∈ l, '\r' ∉ cell.data)
    (hline : ∀ cell ∈ line, '\r' ∉ cell.data)
    (hvalue : '\r' ∉ value) :
    ∀ l ∈ Parser.parseCSVTextAux cs lines line value inQ, ∀ cell ∈ l,
      '\r' ∉ cell.data := by
  induction cs, lines, line, value, inQ using Parser.parseCSVTextAux.induct with
  | case1 lines line value inQ hflush =>
    rw [Parser.parseCSVTextAux.eq_1, if_pos hflush]
    intro l hl cell hcell
    rcases List.mem_append.mp hl with hl | hl
    · exact hlines l hl cell hcell
    · rw [List.mem_singleton] at hl
      subst hl
      rcases List.mem_append.mp hcell with hc | hc
      · exact hline cell hc
      · rw [List.mem_singleton] at hc
        subst hc
        exact hvalue
  | case2 lines line value inQ hflush =>
    rw [Parser.parseCSVTextAux.eq_1, if_neg hflush]
    exact hlines
  | case3 rest lines line value ih =>
    rw [Parser.parseCSVTextAux.eq_2]
    refine ih hlines hline ?_
    simp only [List.mem_append, List.mem_singleton]
    rintro (h | h)
    · exact hvalue h
    · cases h
  | case4 rest lines line value inQ hside ih =>
    rw [Parser.parseCSVTextAux.eq_3 _ _ _ _ _ (fun r hr hq => hside r hr hq)]
    exact ih hlines hline hvalue
  | case5 rest lines line value ih =>
    rw [Parser.parseCSVTextAux.eq_4]
    refine ih ?_ (by simp) (by simp)
    intro l hl cell hcell
    rcases List.mem_append.mp hl with hl | hl
    · exact hlines l hl cell hcell
    · rw [List.mem_singleton] at hl
      subst hl
      rcases List.mem_append.mp hcell with hc | hc
      · exact hline cell hc
      · rw [List.mem_singleton] at hc
        subst hc
        exact hvalue
  | case6 c rest lines line value inQ h1 h2 h3 hcomma ih =>
    rw [Parser.parseCSVTextAux.eq_5 _ _ _ _ _ _ (fun h => h2 h)
        (fun r hq hr ht => h1 r hq hr ht) (fun r hq hr ht => h3 r hq hr ht),
      if_pos hcomma]
    refine ih hlines ?_ (by simp)
    intro cell hcell
    rcases List.mem_append.mp hcell with hc | hc
    · exact hline cell hc
    · rw [List.mem_singleton] at hc
      subst hc
      exact hvalue
  | case7 c rest lines line value inQ h1 h2 h3 hnc hnl ih =>
    rw [Parser.parseCSVTextAux.eq_5 _ _ _ _ _ _ (fun h => h2 h)
        (fun r hq hr ht => h1 r hq hr ht) (fun r hq hr ht => h3 r hq hr ht),
      if_neg hnc, if_pos hnl]
    refine ih ?_ (by simp) (by simp)
    intro l hl cell hcell
    rcases List.mem_append.mp hl with hl | hl
    · exact hlines l hl cell hcell
    · rw [List.mem_singleton] at hl
      subst hl
      rcases List.mem_append.mp hcell with hc | hc
      · exact hline cell hc
      · rw [List.mem_singleton] at hc
        subst hc
        exact hvalue
  | case8 rest lines line value inQ h1 h2 h3 hnc hnl ih =>
    rw [Parser.parseCSVTextAux.eq_5 _ _ _ _ _ _ (fun h => h2 h)
        (fun r hq hr ht => h1 r hq hr ht) (fun r hq hr ht => h3 r hq hr ht),
      if_neg hnc, if_neg hnl, if_pos rfl]
    exact ih hlines hline hvalue
  | case9 c rest lines line value inQ h1 h2 h3 hnc hnl hncr ih =>
    rw [Parser.parseCSVTextAux.eq_5 _ _ _ _ _ _ (fun h => h2 h)
        (fun r hq hr ht => h1 r hq hr ht) (fun r hq hr ht => h3 r hq hr ht),
      if_neg hnc, if_neg hnl, if_neg hncr]
    refine ih hlines hline ?_
    simp only [List.mem_append, List.mem_singleton]
    rintro (h | h)
    · exact hvalue h
    · exact hncr (h ▸ rfl)

/-- C9: a carriage return not immediately followed by a newline is
silently deleted by the scanner — it neither terminates a line nor
reaches any cell value, even inside a double-quoted field — while a bare
newline inside a quoted field is preserved in the value. -/
theorem C9_carriage_return (text : String) :
    (∀ l ∈ Parser.parseCSVText text, ∀ cell ∈ l, '\r' ∉ cell.data) ∧
    Parser.parseCSVText "a\rb" = [["ab"]] ∧
    Parser.parseCSVText "\"a\rb\"" = [["ab"]] ∧
    Parser.parseCSVText "\"a\r\nb\"" = [["a\nb"]] ∧
    Parser.parseCSVText "\"a\nb\"" = [["a\nb"]] := by
  refine ⟨?_, by decide, by decide, by decide, by decide⟩
  exact parseCSVTextAux_no_cr text.data [] [] [] false
    (by intro l hl; cases hl) (by intro cell hc; cases hc) (by intro h; cases h)

/-- Witness for C9: the cell parsed from `a\rb` contains no carriage
return. -/
theorem C9_carriage_return_witness : '\r' ∉ ("ab" : String).data :=
  (C9_carriage_return "a\rb").1 ["ab"] (by decide) "ab" (by decide)

theorem digitsVal_append (xs : List Char) (c : Char) :
    digitsVal (xs ++ [c]) = digitsVal xs * 10 + (c.toNat - 48) := by
  unfold digitsVal
  rw [List.foldl_append]
  rfl

/-- `digitsVal` is a left inverse of `natDigitsAux` given enough fuel. -/
theorem digitsVal_natDigitsAux :
    ∀ (fuel n : Nat), n < 10 ^ fuel → digitsVal (natDigitsAux fuel n) = n := by
  intro fuel
  induction fuel with
  | zero =>
    intro n h
    interval_cases n
    rfl
  | succ fuel ih =>
    intro n h
    by_cases hn : n < 10
    · have hd : ∀ m : Nat, m < 10 → (Nat.digitChar m).toNat - 48 = m := by decide
      show digitsVal (natDigitsAux (fuel + 1) n) = n
      rw [natDigitsAux, if_pos hn]
      show 0 * 10 + ((Nat.digitChar n).toNat - 48) = n
      rw [hd n hn]
      omega
    · rw [natDigitsAux, if_neg hn, digitsVal_append]
      have hdiv : n / 10 < 10 ^ fuel := by
        rw [Nat.pow_succ, Nat.mul_comm] at h
        exact Nat.div_lt_of_lt_mul h
      rw [ih (n / 10) hdiv]
      have hd : ∀ m : Nat, m < 10 → (Nat.digitChar m).toNat - 48 = m := by decide
      rw [hd (n % 10) (Nat.mod_lt _ (by omega))]
      omega

/-- The JS decimal rendering of a natural number determines the number. -/
theorem natRepr_inj {n m : Nat} (h : natRepr n = natRepr m) : n = m := by
  have hdata : natDigitsAux (n + 1) n = natDigitsAux (m + 1) m :=
    congrArg String.data h
  have hn : n < 10 ^ (n + 1) :=
    Nat.lt_of_lt_of_le (Nat.lt_pow_self (by norm_num) n)
      (Nat.pow_le_pow_right (by norm_num) (Nat.le_succ n))
  have hm : m < 10 ^ (m + 1) :=
    Nat.lt_of_lt_of_le (Nat.lt_pow_self (by norm_num) m)
      (Nat.pow_le_pow_right (by norm_num) (Nat.le_succ m))
  calc n = digitsVal (natDigitsAux (n + 1) n) := (digitsVal_natDigitsAux _ n hn).symm
    _ = digitsVal (natDigitsAux (m + 1) m) := by rw [hdata]
    _ = m := digitsVal_natDigitsAux _ m hm

/-- Distinct counters give distinct rewrite candidates for one original
filename. -/
theorem candidateName_inj (orig : String) {k j : Nat}
    (h : Generator.candidateName orig k = Generator.candidateName orig j) :
    k = j := by
  unfold Generator.candidateName at h
  have hd := congrArg String.data h
  simp only [String.data_append] at hd
  have h1 := List.append_cancel_right hd
  have h2 := List.append_cancel_left h1
  exact natRepr_inj (by
    show natRepr k = natRepr j
    cases hk : natRepr k with
    | mk dk =>
      cases hj : natRepr j with
      | mk dj =>
        have : dk = dj := by
          have ek : (natRepr k).data = dk := by rw [hk]
          have ej : (natRepr j).data = dj := by rw [hj]
          rw [← ek, ← ej]
          exact h2
        rw [this])

/-- Among `used.length + 1` successive candidates at least one is free. -/
theorem exists_free_candidate (used : List String) (orig : String) :
    ∃ k, k < used.length + 1 ∧
      Generator.candidateName orig (1 + k) ∉ used := by
  by_contra hall
  push_neg at hall
  have hsub : ((List.range (used.length + 1)).map
      (fun k => Generator.candidateName orig (1 + k))) ⊆ used := by
    intro x hx
    rcases List.mem_map.mp hx with ⟨k, hk, rfl⟩
    exact hall k (List.mem_range.mp hk)
  have hnodup : ((List.range (used.length + 1)).map
      (fun k => Generator.candidateName orig (1 + k))).Nodup := by
    refine List.Nodup.map ?_ (List.nodup_range _)
    intro k j hkj
    have := candidateName_inj orig hkj
    omega
  have h1 : ((List.range (used.length + 1)).map
      (fun k => Generator.candidateName orig (1 + k))).toFinset.card =
      used.length + 1 := by
    rw [List.toFinset_card_of_nodup hnodup, List.length_map, List.length_range]
  have h2 : ((List.range (used.length + 1)).map
      (fun k => Generator.candidateName orig (1 + k))).toFinset ⊆
      used.toFinset := by
    intro x hx
    rw [List.mem_toFinset] at hx ⊢
    exact hsub hx
  have h3 := Finset.card_le_card h2
  have h4 := List.toFinset_card_le used
  omega

/-- The rewrite loop returns a name outside `used` whenever a free
candidate lies within its fuel. -/
theorem resolveNameAux_not_mem (used : List String) (orig : String) :
    ∀ (fuel counter : Nat),
      (∃ k, k < fuel ∧ Generator.candidateName orig (counter + k) ∉ used) →
      Generator.resolveNameAux used orig counter fuel ∉ used := by
  intro fuel
  induction fuel with
  | zero =>
    rintro counter ⟨k, hk, _⟩
    omega
  | succ fuel ih =>
    rintro counter ⟨k, hk, hfree⟩
    rw [Generator.resolveNameAux]
    by_cases hc : Generator.candidateName orig counter ∈ used
    · rw [if_pos hc]
      refine ih (counter + 1) ⟨k - 1, ?_, ?_⟩
      · rcases Nat.eq_zero_or_pos k with hk0 | hk0
        · subst hk0
          simp at hfree
          exact absurd hc hfree
        · omega
      · rcases Nat.eq_zero_or_pos k with hk0 | hk0
        · subst hk0
          simp at hfree
          exact absurd hc hfree
        · have : counter + 1 + (k - 1) = counter + k := by omega
          rw [this]
          exact hfree
    · rw [if_neg hc]
      exact hc

/-- The name a document enters the archive under is never one already
reserved. -/
theorem resolveName_not_mem (used : List String) (orig : String) :
    Generator.resolveName used orig ∉ used := by
  unfold Generator.resolveName
  by_cases hc : orig ∈ used
  · rw [if_pos hc]
    exact resolveNameAux_not_mem used orig (used.length + 1) 1
      (exists_free_candidate used orig)
  · rw [if_neg hc]
    exact hc

/-- The archive-name loop yields names that avoid the initial reserved
set and are pairwise distinct. -/
theorem zipNamesAux_nodup :
    ∀ (docs used : List String),
      (∀ n ∈ Generator.zipNamesAux docs used, n ∉ used) ∧
      (Generator.zipNamesAux docs used).Nodup := by
  intro docs
  induction docs with
  | nil => intro used; simp [Generator.zipNamesAux]
  | cons d ds ih =>
    intro used
    rw [Generator.zipNamesAux]
    constructor
    · intro n hn
      rcases List.mem_cons.mp hn with hn | hn
      · subst hn
        exact resolveName_not_mem used d
      · intro hmem
        exact (ih (Generator.resolveName used d :: used)).1 n hn
          (List.mem_cons_of_mem _ hmem)
    · rw [List.nodup_cons]
      constructor
      · intro hmem
        exact (ih (Generator.resolveName used d :: used)).1 _ hmem
          (List.mem_cons_self _ _)
      · exact (ih (Generator.resolveName used d :: used)).2

/-- The loop emits one archive name per document. -/
theorem zipNamesAux_length :
    ∀ (docs used : List String),
      (Generator.zipNamesAux docs used).length = docs.length := by
  intro docs
  induction docs with
  | nil => intro used; rfl
  | cons d ds ih =>
    intro used
    rw [Generator.zipNamesAux]
    simp [ih]

theorem string_data_ext {a b : String} (h : a.data = b.data) : a = b := by
  cases a
  cases b
  simp only at h
  rw [h]

/-- Stripping `.docx` from a name of the form `b ++ ".docx"` (with no dot
in `b`) yields `b`. -/
theorem replaceFirst_docx_suffix (bs : List Char) (h : '.' ∉ bs) :
    replaceFirst ".docx".data [] (bs ++ ".docx".data) = bs := by
  induction bs with
  | nil => decide
  | cons c cs ih =>
    rw [List.cons_append]
    simp only [replaceFirst]
    rw [if_neg, ih (fun hm => h (List.mem_cons_of_mem _ hm))]
    intro hpre
    simp only [List.isPrefixOf, Bool.and_eq_true] at hpre
    exact h (List.mem_cons.mpr (Or.inl (eq_of_beq hpre.1)))

theorem stripDocx_suffix (b : String) (h : '.' ∉ b.data) :
    Generator.stripDocx (b ++ ".docx") = b := by
  apply string_data_ext
  show replaceFirst ".docx".data [] (b ++ ".docx").data = b.data
  rw [String.data_append]
  exact replaceFirst_docx_suffix b.data h

/-- A document whose name is not reserved and not among the earlier
archive entries keeps its original name. -/
theorem zipNamesAux_keep (nm : String) :
    ∀ (docs used : List String) (i : Nat),
      docs[i]? = some nm → nm ∉ used →
      nm ∉ (Generator.zipNamesAux docs used).take i →
      (Generator.zipNamesAux docs used)[i]? = some nm := by
  intro docs
  induction docs with
  | nil =>
    intro used i hget
    simp at hget
  | cons d ds ih =>
    intro used i hget hused htake
    rw [Generator.zipNamesAux] at htake ⊢
    cases i with
    | zero =>
      simp only [List.getElem?_cons_zero] at hget
      injection hget with hget
      subst hget
      have hres : Generator.resolveName used d = d := by
        unfold Generator.resolveName
        rw [if_neg hused]
      simp [hres]
    | succ i =>
      simp only [List.getElem?_cons_succ] at hget ⊢
      simp only [List.take_succ_cons, List.mem_cons, not_or] at htake
      obtain ⟨hne, htake'⟩ := htake
      refine ih (Generator.resolveName used d :: used) i hget ?_ htake'
      rw [List.mem_cons, not_or]
      exact ⟨hne, hused⟩

/-- Two documents with the same `b ++ ".docx"` filename enter the archive
as `b ++ ".docx"` and `b ++ "_1.docx"`. -/
theorem zipNames_pair (b : String) (hdot : '.' ∉ b.data) :
    Generator.zipNames [b ++ ".docx", b ++ ".docx"] =
      [b ++ ".docx", b ++ "_1.docx"] ∧
    b ++ "_1.docx" ≠ b ++ ".docx" := by
  have hne : b ++ "_1.docx" ≠ b ++ ".docx" := by
    intro he
    have hd := congrArg String.data he
    simp only [String.data_append] at hd
    have h2 := List.append_cancel_left hd
    exact absurd h2 (by decide)
  have hcand : Generator.candidateName (b ++ ".docx") 1 = b ++ "_1.docx" := by
    unfold Generator.candidateName
    rw [stripDocx_suffix b hdot]
    apply string_data_ext
    simp only [String.data_append]
    rw [List.append_assoc, List.append_assoc]
    rfl
  refine ⟨?_, hne⟩
  unfold Generator.zipNames
  rw [Generator.zipNamesAux]
  have h1 : Generator.resolveName [] (b ++ ".docx") = b ++ ".docx" := by
    unfold Generator.resolveName
    rw [if_neg (List.not_mem_nil _)]
  rw [h1, Generator.zipNamesAux]
  have h2 : Generator.resolveName [b ++ ".docx"] (b ++ ".docx") =
      b ++ "_1.docx" := by
    unfold Generator.resolveName
    rw [if_pos (List.mem_singleton.mpr rfl)]
    show Generator.resolveNameAux [b ++ ".docx"] (b ++ ".docx") 1 2 =
      b ++ "_1.docx"
    rw [Generator.resolveNameAux]
    rw [hcand]
    rw [if_neg (by
      rw [List.mem_singleton]
      exact hne)]
  rw [h2, Generator.zipNamesAux]

/-- C6 counterexample: with documents `A.docx`, `A_1.docx`, `A.docx`, the
second member of the `A.docx` collision group receives the `_2` suffix,
not `_1` (the `_1` name is already taken by an unrelated document), so
the claim's "the second receives the `_1` suffix" fails. -/
theorem C6_createZip_counterexample :
    Generator.zipNames ["A.docx", "A_1.docx", "A.docx"] =
      ["A.docx", "A_1.docx", "A_2.docx"] ∧
    (Generator.zipNames ["A.docx", "A_1.docx", "A.docx"])[2]? ≠
      some "A_1.docx" := by
  constructor <;> decide

/-- C6 (amended): `createZip` scans documents in order and rewrites a
clashing candidate name to `<base>_<n>.docx` for the smallest free
`n ≥ 1`: every archive entry name is unique, one entry is produced per
document, a document whose name is not already among the earlier entries
keeps its original name, and two documents sharing the name
`b ++ ".docx"` yield the second entry `b ++ "_1.docx"` — though when an
unrelated document already occupies a numbered variant, the second member
of a collision group can receive a higher number. -/
theorem C6_createZip_dedup (docs : List String) (b : String)
    (hdot : '.' ∉ b.data) :
    (Generator.zipNames docs).Nodup ∧
    (Generator.zipNames docs).length = docs.length ∧
    (∀ (i : Nat) (nm : String), docs[i]? = some nm →
      nm ∉ (Generator.zipNames docs).take i →
      (Generator.zipNames docs)[i]? = some nm) ∧
    Generator.zipNames [b ++ ".docx", b ++ ".docx"] =
      [b ++ ".docx", b ++ "_1.docx"] ∧
    b ++ "_1.docx" ≠ b ++ ".docx" := by
  refine ⟨(zipNamesAux_nodup docs []).2, zipNamesAux_length docs [],
    ?_, zipNames_pair b hdot⟩
  intro i nm hget htake
  exact zipNamesAux_keep nm docs [] i hget (List.not_mem_nil _) htake

/-- Witness for C6 on concrete documents. -/
theorem C6_createZip_dedup_witness :
    (Generator.zipNames ["Rpt.docx", "Rpt.docx"]).Nodup ∧
    Generator.zipNames ["Rpt" ++ ".docx", "Rpt" ++ ".docx"] =
      ["Rpt" ++ ".docx", "Rpt" ++ "_1.docx"] :=
  ⟨(C6_createZip_dedup ["Rpt.docx", "Rpt.docx"] "Rpt" (by decide)).1,
   (C6_createZip_dedup ["Rpt.docx", "Rpt.docx"] "Rpt" (by decide)).2.2.2.1⟩
